import Mathlib

/-!
Shallow embedding of the car-scout SMS negotiation service (Python sources
`utils.py`, `server.py`, `models.py`) and verification of its specification.

Conventions of the embedding:
* Instants are integers counting seconds on the Central-Time local timeline
  (the single scheduling timezone of the program); `timedelta(days=d)` is
  `d * 86400` seconds, `datetime.date()` is floor division by 86400, and
  `datetime.hour` is `(t mod 86400) / 3600`.  Daylight-saving shifts are not
  modelled: every claim is arithmetic on a fixed local timeline.
* The Mongo document store is a Lean list per collection; `find` with the
  query used by the code becomes `List.filter` / `List.find?` with the same
  predicate, `insert_one` appends, and `update_one` with a `$set` document
  rewrites exactly the given fields.
* Each language-model call is an oracle parameter: `Option Bool` for yes/no
  judgments (`none` = the call raised), `Option String` for text generation,
  and `ExtractResult` for the scheduling extraction prompt.
-/

namespace CarScout

/-! ### Time helpers (Central-Time local seconds) -/

/-- `datetime.date()` as a day index: floor division of the instant by 86400. -/
def dayOf (t : Int) : Int := Int.fdiv t 86400

/-- `datetime.hour`: hour-of-day of the instant. -/
def hourOf (t : Int) : Int := Int.fdiv (Int.emod t 86400) 3600

/-- `datetime.combine(d, time(hour = h))`: the instant h:00:00 on day `d`. -/
def slotAt (d : Int) (h : Nat) : Int := d * 86400 + (h : Int) * 3600

/-! ### Visit documents (`models.py`, collection `visits`) -/

/-- A document of the `visits` collection, with the fields written by
`create_visit` / `modify_visit` (`utils.py` lines 819-861).  The store-assigned
`_id` is not modelled; no logic of the program reads it. -/
structure VisitDoc where
  threadId : Nat
  scheduledTime : Int
  dealerPhoneNumber : String
  status : String
  notes : Option String
  carListingId : Option Nat
  createdAt : Int
  updatedAt : Int
deriving DecidableEq

/-- The projection of a visit returned by `get_visit_availability`
(`utils.py` lines 808-816); the scheduling logic only ever reads
`scheduledTime` from it. -/
structure AvailEntry where
  scheduledTime : Int
  dealerPhoneNumber : String
  status : String
deriving DecidableEq

def entryOf (v : VisitDoc) : AvailEntry :=
  { scheduledTime := v.scheduledTime
    dealerPhoneNumber := v.dealerPhoneNumber
    status := v.status }

/-- `get_visit_availability(start_date, end_date)` (`utils.py` lines 793-816):
all visits whose `scheduledTime` is in `[start_date, end_date]` and whose
status is not "cancelled".  Note the query has no `threadId` condition. -/
def get_visit_availability (db : List VisitDoc) (start_date end_date : Int) :
    List AvailEntry :=
  (db.filter fun v =>
    decide (start_date ≤ v.scheduledTime) && decide (v.scheduledTime ≤ end_date)
      && !(v.status == "cancelled")).map entryOf

/-- `create_visit` (`utils.py` lines 819-841): the inserted document.
`wall` is `datetime.now()` at insertion time. -/
def create_visit (thread_id : Nat) (scheduled_time : Int)
    (dealer_phone_number : String) (car_listing_id : Option Nat)
    (notes : Option String) (wall : Int) : VisitDoc :=
  { threadId := thread_id
    scheduledTime := scheduled_time
    dealerPhoneNumber := dealer_phone_number
    status := "scheduled"
    notes := notes
    carListingId := car_listing_id
    createdAt := wall
    updatedAt := wall }

/-- `modify_visit` (`utils.py` lines 844-861) applied to the matched document:
a `$set` of `updatedAt` plus `scheduledTime` when the argument is given
(a datetime is always truthy), `notes` when not `None`, and `status` when
truthy (not `None` and not the empty string). -/
def modify_visit (v : VisitDoc) (scheduled_time : Option Int)
    (notes : Option String) (status : Option String) (wall : Int) : VisitDoc :=
  let v1 := { v with updatedAt := wall }
  let v2 := match scheduled_time with
    | some t => { v1 with scheduledTime := t }
    | none => v1
  let v3 := match notes with
    | some n => { v2 with notes := some n }
    | none => v2
  match status with
  | some s => if s == "" then v3 else { v3 with status := s }
  | none => v3

/-! ### Conflict detection (the inlined loop of `utils.py` lines 1103-1115,
1164-1176, 1213-1226, 1252-1264: identical in all four occurrences) -/

/-- Two scheduled times conflict when the absolute difference of the instants
is strictly less than 3600 seconds: `abs((t1 - t2).total_seconds()) < 3600`. -/
def conflictsWith (t1 t2 : Int) : Bool := decide (|t1 - t2| < 3600)

/-- The conflict loop over the availability context: `True` when some existing
visit conflicts with `t`. -/
def hasConflict (t : Int) (existing_visits : List AvailEntry) : Bool :=
  existing_visits.any fun v => conflictsWith t v.scheduledTime

/-! ### `find_next_available_time` (`utils.py` lines 1153-1186) -/

/-- The candidate offsets, in the order the source lists them (minutes). -/
def schedule_offsets : List Int := [-30, 30, -60, 60, -90, 90]

/-- Leftmost element of minimal key.  This equals the head of the stable sort
by `key` performed by the source (`time_slots.sort(key=...)` followed by
`time_slots[0]`): Python list sort is stable, so the first element of the
sorted list is the leftmost minimal element. -/
def argminKey (key : Int → Nat) : List Int → Option Int
  | [] => none
  | t :: ts =>
    match argminKey key ts with
    | none => some t
    | some u => if key u < key t then some u else some t

/-- `find_next_available_time(proposed_time, existing_visits, ct_tz, end_date)`:
try the six candidates `proposed_time + off` minutes, skip those before `now`
(the source re-reads `datetime.now(ct_tz)` here; the embedding passes the same
instant `now`) or after `end_date`, drop conflicting ones, and return the
candidate closest to the proposed time, or `none`. -/
def find_next_available_time (proposed_time : Int)
    (existing_visits : List AvailEntry) (now end_date : Int) : Option Int :=
  let time_slots := schedule_offsets.filterMap fun off =>
    let candidate_time := proposed_time + off * 60
    if decide (candidate_time < now) || decide (end_date < candidate_time) then
      none
    else if hasConflict candidate_time existing_visits then
      none
    else
      some candidate_time
  argminKey (fun t => (t - proposed_time).natAbs) time_slots

/-! ### `propose_available_time` (`utils.py` lines 1189-1279) -/

/-- Preferred visit hours: 10am, 2pm, 4pm (`utils.py` line 1192). -/
def preferred_hours : List Nat := [10, 14, 16]

/-- The second-pass hours `range(9, 18)` (`utils.py` line 1242). -/
def fallback_hours : List Nat := List.range' 9 9

/-- The scan start (`utils.py` lines 1194-1197): tomorrow, or today at 10:00
when the current Central-Time hour is before 10
(`now_ct.replace(hour=10, minute=0, second=0, microsecond=0)`). -/
def proposal_start (now_ct : Int) : Int :=
  if hourOf now_ct < 10 then dayOf now_ct * 86400 + 10 * 3600
  else now_ct + 86400

/-- Day indices `a, a+1, ..., b` (the `while current_date <= end_date_only`
loop with `current_date += timedelta(days=1)`). -/
def dayRange (a b : Int) : List Int :=
  if b < a then []
  else (List.range ((b - a).toNat + 1)).map fun i => a + (i : Int)

/-- The days scanned by both passes of `propose_available_time`:
`start_date.date()` through `end_date.date()`. -/
def proposal_days (now_ct end_date : Int) : List Int :=
  dayRange (dayOf (proposal_start now_ct)) (dayOf end_date)

/-- A candidate slot is skipped when it is before `now_ct`, after `end_date`,
or conflicts with an existing visit (`utils.py` lines 1211-1226). -/
def slotInvalid (now_ct end_date : Int) (existing_visits : List AvailEntry)
    (c : Int) : Bool :=
  decide (c < now_ct) || decide (end_date < c) || hasConflict c existing_visits

/-- One pass of the scan: days in order, hours in order, first valid free
slot wins (the nested `for` loops with an early `return`). -/
def scanHours (days : List Int) (hours : List Nat) (now_ct end_date : Int)
    (existing_visits : List AvailEntry) : Option Int :=
  days.findSome? fun d => hours.findSome? fun h =>
    let candidate_time := slotAt d h
    if slotInvalid now_ct end_date existing_visits candidate_time then none
    else some candidate_time

/-- The messages `propose_available_time` can return; the strftime-formatted
time inside the text is abstracted as the instant itself. -/
inductive PMsg where
  | slotPreferred (t : Int)
  | slotAny (t : Int)
  | askDealer
deriving DecidableEq

/-- Result dictionary of `propose_available_time`, together with the visit
document, if any, that the call inserted through `create_visit`. -/
structure ProposeResult where
  message : PMsg
  visit_scheduled : Bool
  created : Option VisitDoc
deriving DecidableEq

/-- `propose_available_time` (`utils.py` lines 1189-1279): scan the window for
a preferred-hour slot, then for any whole hour in `[9, 18)`; book the first
free slot found, else return the ask-the-dealer message with no booking. -/
def propose_available_time (now_ct end_date : Int)
    (existing_visits : List AvailEntry) (thread_id : Nat)
    (dealer_phone_number : String) (car_listing_id : Option Nat) :
    ProposeResult :=
  let days := proposal_days now_ct end_date
  match scanHours days preferred_hours now_ct end_date existing_visits with
  | some c =>
    { message := .slotPreferred c
      visit_scheduled := true
      created := some (create_visit thread_id c dealer_phone_number
        car_listing_id none now_ct) }
  | none =>
    match scanHours days fallback_hours now_ct end_date existing_visits with
    | some c =>
      { message := .slotAny c
        visit_scheduled := true
        created := some (create_visit thread_id c dealer_phone_number
          car_listing_id none now_ct) }
    | none =>
      { message := .askDealer, visit_scheduled := false, created := none }

/-! ### `process_visit_scheduling` (`utils.py` lines 995-1150) -/

/-- A document of the `carlistings` collection, restricted to the fields the
control flow reads (`_id` is modelled as `id`; the extracted listing fields
other than make/model/year are never branched on). -/
structure CarListingDoc where
  id : Nat
  threadId : Nat
  make : Option String
  model : Option String
  year : Option Int
  conversationComplete : Bool
deriving DecidableEq

/-- Outcome of the extraction prompt of `process_visit_scheduling`
(`utils.py` lines 1059-1074):
* `llmError`: the completion call raised (outer `except`, lines 1145-1150);
* `noTime`: `dealer_proposed_date and dealer_proposed_time` is falsy — no
  concrete time was proposed.  A proposed time whose parsing raises (inner
  `except`, lines 1136-1140) reaches the same `propose_available_time` call
  and is covered by this case;
* `proposed t`: a concrete proposed time, parsed and normalised to Central
  Time. -/
inductive ExtractResult where
  | llmError
  | noTime
  | proposed (t : Int)
deriving DecidableEq

/-- The messages `process_visit_scheduling` can return; as in `PMsg`, the
formatted time inside the text is abstracted as the instant itself. -/
inductive SchedMsg where
  | confirmed (t : Int)
  | alternative (t : Int)
  | proposal (m : PMsg)
  | genericAsk
deriving DecidableEq

/-- Result dictionary of `process_visit_scheduling` together with the visit
document, if any, created during the call. -/
structure SchedulingOutcome where
  message : SchedMsg
  visit_scheduled : Bool
  created : Option VisitDoc
deriving DecidableEq

def liftPropose (r : ProposeResult) : SchedulingOutcome :=
  { message := .proposal r.message
    visit_scheduled := r.visit_scheduled
    created := r.created }

/-- `process_visit_scheduling(transcript, thread_id, dealer_phone_number,
latest_message)`: returns `none` when no OpenAI client is configured
(line 997); otherwise computes the 2-day window, loads the availability
context, asks the model for a proposed time (`extraction`), and books or
proposes per lines 1080-1150.  `now_ct` is `datetime.now(ct_tz)`. -/
def process_visit_scheduling (hasClient : Bool) (db : List VisitDoc)
    (carlistings : List CarListingDoc) (now_ct : Int)
    (extraction : ExtractResult) (thread_id : Nat)
    (dealer_phone_number : String) : Option SchedulingOutcome :=
  if !hasClient then none
  else
    let end_date := now_ct + 2 * 86400
    let existing_visits := get_visit_availability db now_ct end_date
    let car_listing_id :=
      (carlistings.find? fun c => c.threadId == thread_id).map fun c => c.id
    some (match extraction with
    | .llmError =>
      { message := .genericAsk, visit_scheduled := false, created := none }
    | .noTime =>
      liftPropose (propose_available_time now_ct end_date existing_visits
        thread_id dealer_phone_number car_listing_id)
    | .proposed proposed_time =>
      if proposed_time < now_ct then
        liftPropose (propose_available_time now_ct end_date existing_visits
          thread_id dealer_phone_number car_listing_id)
      else if hasConflict proposed_time existing_visits then
        match find_next_available_time proposed_time existing_visits now_ct
            end_date with
        | some alternative_time =>
          { message := .alternative alternative_time
            visit_scheduled := true
            created := some (create_visit thread_id alternative_time
              dealer_phone_number car_listing_id none now_ct) }
        | none =>
          liftPropose (propose_available_time now_ct end_date existing_visits
            thread_id dealer_phone_number car_listing_id)
      else
        { message := .confirmed proposed_time
          visit_scheduled := true
          created := some (create_visit thread_id proposed_time
            dealer_phone_number car_listing_id none now_ct) })

/-! ### The new-information classifier (`utils.py` lines 488-589) -/

/-- `p.isPrefixOf`-based substring test: `re.search` of a literal pattern. -/
def subseg (p s : List Char) : Bool := s.tails.any fun t => p.isPrefixOf t

/-- `b` occurs after a (possibly empty) run of non-newline characters:
the `.*b` tail of a Python regex (`.` does not match a newline). -/
def noNewlineThen (b : List Char) : List Char → Bool
  | [] => b.isPrefixOf ([] : List Char)
  | c :: rest => b.isPrefixOf (c :: rest) || (c != '\n' && noNewlineThen b rest)

/-- `re.search` of the pattern `a.*b` (`a`, `b` literal): some occurrence of
`a` is followed, with no intervening newline, by an occurrence of `b`. -/
def dotstarMatch (a b s : List Char) : Bool :=
  s.tails.any fun t => a.isPrefixOf t && noNewlineThen b (t.drop a.length)

/-- The acknowledgment patterns are literal strings except three of the form
`a.*b`. -/
inductive AckPattern where
  | lit (p : String)
  | around (a b : String)
deriving DecidableEq

def patMatches (p : AckPattern) (s : String) : Bool :=
  match p with
  | .lit q => subseg q.data s.data
  | .around a b => dotstarMatch a.data b.data s.data

/-- `acknowledgment_patterns` (`utils.py` lines 495-516), in source order. -/
def acknowledgment_patterns : List AckPattern :=
  [.lit "sounds good",
   .lit "will get back",
   .lit "get back to you",
   .lit "will update you",
   .lit "update you as soon",
   .lit "will reach out",
   .lit "reach out as soon",
   .lit "will be in touch",
   .lit "be in touch as soon",
   .lit "working to get",
   .around "gathering" "information",
   .around "collecting" "information",
   .lit "looking into",
   .lit "will provide",
   .around "provide" "as soon",
   .lit "thank you for your patience",
   .lit "thank you for checking in",
   .lit "still working",
   .lit "still gathering",
   .lit "still collecting"]

/-- `str.lower()` restricted to ASCII, written over the character list so
that concrete instances evaluate by kernel reduction. -/
def lowerStr (s : String) : String := String.mk (s.data.map Char.toLower)

/-- `is_just_acknowledgment` (`utils.py` lines 519-523): some pattern matches
the lowercased message, and the message has no digit (`\d+`) and no dollar
sign.  (Only ASCII digits are modelled.) -/
def is_just_acknowledgment (message : String) : Bool :=
  (acknowledgment_patterns.any fun p => patMatches p (lowerStr message))
    && !(message.data.any Char.isDigit)
    && !(message.data.contains '$')

/-- `message_contains_new_information(message, known_data)` (`utils.py` lines
488-589).  `hasClient` models `openai_client` being configured; `lm` is the
yes/no model call (`none` = the call raised; the known-data prompt text does
not influence the embedded result).  The second component records whether the
language model was invoked. -/
def message_contains_new_information (hasClient : Bool) (lm : Option Bool)
    (message : String) : Bool × Bool :=
  if !hasClient then (true, false)
  else if is_just_acknowledgment message then (false, false)
  else
    match lm with
    | some saysYes => (saysYes, true)
    | none => (true, true)

/-! ### The SMS webhook handler (`server.py` lines 163-546) -/

/-- A document of the `threads` collection (`server.py` lines 202-209). -/
structure ThreadDoc where
  id : Nat
  phoneNumber : String
  lastMessage : String
  lastMessageTime : Int
  unreadCount : Nat
  conversationComplete : Bool
  waitingForDealerResponse : Bool
deriving DecidableEq

/-- A document of the `messages` collection (`server.py` lines 238-246);
`sender`/`recipient` embed the `from`/`to` keys. -/
structure MessageDoc where
  threadId : Nat
  sender : String
  recipient : String
  body : String
  direction : String
  timestamp : Int
  externalMessageId : Option String
deriving DecidableEq

/-- The webhook payload.  `timestamp` is the provider timestamp already
parsed (`none` covers both an absent field and a parse failure, which the
source maps to `datetime.now()`); `tagsMessageId` is `tags.get("messageId")`. -/
structure SMSWebhook where
  fromNumber : String
  toNumber : Option String
  message : String
  replyId : Option String
  tagsMessageId : Option String
  timestamp : Option Int
deriving DecidableEq

/-- The whole persistent and in-memory state the handler touches:
the four collections plus the process-wide `pending_responses` map
(thread id paired with the not-yet-sent reply text). -/
structure World where
  threads : List ThreadDoc
  messages : List MessageDoc
  carlistings : List CarListingDoc
  visits : List VisitDoc
  pending : List (Nat × String)
  nextThreadId : Nat
  nextListingId : Nat
deriving DecidableEq

/-- Oracles for the external calls made during one webhook invocation.
`wall` stands for every `datetime.now(...)` read; `aiResponse = none` means
`get_ai_response` raised; `sendOk = false` means `send_sms` raised after its
retries; `listingExtractOk = false` means `extract_car_listing_data` raised. -/
structure Oracles where
  wall : Int
  hasOpenAI : Bool
  classifierLm : Option Bool
  aiResponse : Option String
  extraction : ExtractResult
  aboutVisit : Bool
  sendOk : Bool
  listingExtractOk : Bool
deriving DecidableEq

/-- Externally visible effects of one webhook invocation that are not part of
the stored `World`: which model-backed helpers ran and which SMS were
delivered. -/
structure Effects where
  classifierCalled : Bool
  agentCalled : Bool
  schedulerCalled : Bool
  smsSent : List (String × String)
deriving DecidableEq

def noEffects : Effects :=
  { classifierCalled := false
    agentCalled := false
    schedulerCalled := false
    smsSent := [] }

/-- Handler outcome: an HTTP 200 `{success: true, message: note}` or an
HTTPException (`server.py` converts every failure to a 500 at line 546). -/
inductive WebhookOutcome where
  | ok (w : World) (note : String) (eff : Effects)
  | err (w : World) (statusCode : Nat) (eff : Effects)
deriving DecidableEq

def MTA_PHONE_NUMBER : String := "+18776647380"

/-- The Mobile Text Alerts opt-in boilerplate, matched case-insensitively
(`server.py` line 186). -/
def containsOptIn (m : String) : Bool :=
  subseg "thanks for opting in to receive messages from us!".data
    (lowerStr m).data

def findThread (w : World) (phone : String) : Option ThreadDoc :=
  w.threads.find? fun t => t.phoneNumber == phone

def updateThread (threads : List ThreadDoc) (th : ThreadDoc) : List ThreadDoc :=
  threads.map fun t => if t.id == th.id then th else t

def findListing (w : World) (tid : Nat) : Option CarListingDoc :=
  w.carlistings.find? fun c => c.threadId == tid

/-- The inbound message document saved at `server.py` lines 238-247. -/
def inbound_message (req : SMSWebhook) (thId : Nat) (wall : Int) : MessageDoc :=
  { threadId := thId
    sender := req.fromNumber
    recipient := req.toNumber.getD "unknown"
    body := req.message
    direction := "inbound"
    timestamp := req.timestamp.getD wall
    externalMessageId :=
      match req.replyId with
      | some r => some r
      | none => req.tagsMessageId }

def outbound_message (thId : Nat) (recipient : String) (body : String)
    (wall : Int) : MessageDoc :=
  { threadId := thId
    sender := MTA_PHONE_NUMBER
    recipient := recipient
    body := body
    direction := "outbound"
    timestamp := wall
    externalMessageId := none }

/-- The scheduling reply texts as stored in `lastMessage` and the outbound
message; strftime formatting of the slot is abstracted as `toString`. -/
def renderSched : SchedMsg → String
  | .confirmed t =>
    "Perfect! Scheduled a visit for " ++ toString t ++ " Central Time."
  | .alternative t =>
    "Not available at that exact time, but how about " ++ toString t ++
      " Central Time? Scheduled it for then."
  | .proposal (.slotPreferred t) =>
    "Will come by at " ++ toString t ++ " Central Time - thank you."
  | .proposal (.slotAny t) =>
    "How about " ++ toString t ++ " Central Time? Scheduled it for then."
  | .proposal .askDealer =>
    "Pretty booked up over the next couple days. What times work best for you?"
  | .genericAsk =>
    "Ready to schedule a visit. What date and time works for you?"

/-- `$set {conversationComplete: true}` on the thread listing join used by
the booking branches (`server.py` lines 374-377 / 460-463; the freshly
extracted listing fields are abstracted). -/
def set_listing_complete (ls : List CarListingDoc) (tid : Nat) :
    List CarListingDoc :=
  ls.map fun c =>
    if c.threadId == tid then { c with conversationComplete := true } else c

/-- Shared tail of the two booking branches (`server.py` lines 341-365 and
428-452): send the confirmation when the gateway succeeds (a send failure is
caught and skips the outbound save), then mark the thread complete. -/
def finish_booking (w : World) (o : Oracles) (th : ThreadDoc)
    (sender text : String) (eff : Effects) : World × Effects :=
  let wSent :=
    if o.sendOk then
      { w with messages := w.messages ++ [outbound_message th.id sender text o.wall] }
    else w
  let effSent :=
    if o.sendOk then { eff with smsSent := eff.smsSent ++ [(sender, text)] }
    else eff
  let thDone :=
    { th with conversationComplete := true
              lastMessage := text
              lastMessageTime := o.wall }
  let wDone := { wSent with threads := updateThread wSent.threads thDone }
  (wDone, effSent)

/-- The response-generation block (`server.py` lines 278-538): run the
negotiation agent and dispatch on its control markers, the visit-keyword
fallback, or the delayed-send path.  An exception from `get_ai_response` is
caught at line 535 and ends in the plain success return at line 538. -/
def webhook_generate (w : World) (o : Oracles) (req : SMSWebhook)
    (th : ThreadDoc) (eff : Effects) : WebhookOutcome :=
  match o.aiResponse with
  | none => .ok w "Message processed" eff
  | some ai0 =>
    let eff := { eff with agentCalled := true }
    if subseg "# WAITING #".data ai0.data then
      -- enter waiting state (lines 289-319)
      let thankYou :=
        let s := (ai0.replace "# WAITING #" "").trim
        if s == "" then "Thank you" else s
      let thWaiting :=
        { th with waitingForDealerResponse := true
                  lastMessage := thankYou
                  lastMessageTime := o.wall }
      let w1 :=
        if o.sendOk then
          { w with
            messages := w.messages ++
              [outbound_message th.id req.fromNumber thankYou o.wall]
            threads := updateThread w.threads thWaiting }
        else w
      let eff1 :=
        if o.sendOk then
          { eff with smsSent := eff.smsSent ++ [(req.fromNumber, thankYou)] }
        else eff
      .ok w1
        "Entered waiting state, no further responses until dealer provides new info"
        eff1
    else if subseg "#SCHEDULE#".data ai0.data then
      -- hand off to the scheduling engine (lines 323-406)
      let eff := { eff with schedulerCalled := true }
      match process_visit_scheduling o.hasOpenAI w.visits w.carlistings o.wall
          o.extraction th.id req.fromNumber with
      | some out =>
        let w1 := match out.created with
          | some v => { w with visits := w.visits ++ [v] }
          | none => w
        if out.visit_scheduled then
          let text := renderSched out.message
          let (w2, eff2) := finish_booking w1 o th req.fromNumber text eff
          let w3 :=
            if o.listingExtractOk then
              match findListing w2 th.id with
              | some _ =>
                { w2 with carlistings := set_listing_complete w2.carlistings th.id }
              | none =>
                { w2 with
                  carlistings := w2.carlistings ++
                    [{ id := w2.nextListingId
                       threadId := th.id
                       make := none
                       model := none
                       year := none
                       conversationComplete := true }]
                  nextListingId := w2.nextListingId + 1 }
            else w2
          .ok w3 "Visit scheduled, conversation complete" eff2
        else
          .ok w1 "Message processed" eff
      | none => .ok w "Message processed" eff
    else if o.aboutVisit then
      -- visit-keyword fallback (lines 407-486)
      match findListing w th.id with
      | some cl =>
        if cl.make.isSome && cl.model.isSome && cl.year.isSome then
          let eff := { eff with schedulerCalled := true }
          match process_visit_scheduling o.hasOpenAI w.visits w.carlistings
              o.wall o.extraction th.id req.fromNumber with
          | some out =>
            let w1 := match out.created with
              | some v => { w with visits := w.visits ++ [v] }
              | none => w
            if out.visit_scheduled then
              let text := renderSched out.message
              let (w2, eff2) := finish_booking w1 o th req.fromNumber text eff
              let w3 :=
                if o.listingExtractOk && !cl.conversationComplete then
                  { w2 with carlistings := set_listing_complete w2.carlistings th.id }
                else w2
              .ok w3 "Visit scheduled, conversation complete" eff2
            else
              .ok w1 "Message processed" eff
          | none => .ok w "Message processed" eff
        else
          .ok w "Message processed" eff
      | none => .ok w "Message processed" eff
    else
      -- register the delayed response (lines 488-534)
      .ok { w with pending := w.pending ++ [(th.id, ai0)] }
        "Message processed" eff

/-- The steps after the inbound message is saved (`server.py` lines 249-277):
the conversation-complete no-op, the waiting-state classifier gate, and the
cancellation of any pending response. -/
def webhook_after_message (w : World) (o : Oracles) (req : SMSWebhook)
    (th : ThreadDoc) : WebhookOutcome :=
  if th.conversationComplete then
    .ok w "Conversation complete, no response sent" noEffects
  else
    let step : Option (World × ThreadDoc × Effects) :=
      if th.waitingForDealerResponse then
        let hasNew :=
          (message_contains_new_information o.hasOpenAI o.classifierLm
            req.message).1
        let effC := { noEffects with classifierCalled := true }
        if !hasNew then none
        else
          let th1 := { th with waitingForDealerResponse := false }
          some ({ w with threads := updateThread w.threads th1 }, th1, effC)
      else some (w, th, noEffects)
    match step with
    | none =>
      .ok w "Waiting for dealer response, no new information in message"
        { noEffects with classifierCalled := true }
    | some (w1, th1, eff) =>
      let w2 := { w1 with pending := w1.pending.filter fun p => p.1 ≠ th1.id }
      webhook_generate w2 o req th1 eff

/-- `sms_webhook` (`server.py` lines 163-546): field validation, the opt-in
filter, find-or-create of the thread, saving the inbound message, then
`webhook_after_message`.  The 400 for missing fields is itself caught by the
outermost handler and converted to a 500 (lines 539-546). -/
def sms_webhook (w : World) (o : Oracles) (req : SMSWebhook) : WebhookOutcome :=
  if req.fromNumber == "" || req.message == "" then .err w 500 noEffects
  else if containsOptIn req.message then .ok w "Opt-in message ignored" noEffects
  else
    let ts := req.timestamp.getD o.wall
    match findThread w req.fromNumber with
    | none =>
      let th : ThreadDoc :=
        { id := w.nextThreadId
          phoneNumber := req.fromNumber
          lastMessage := req.message
          lastMessageTime := ts
          unreadCount := 1
          conversationComplete := false
          waitingForDealerResponse := false }
      let w1 := { w with threads := w.threads ++ [th]
                         nextThreadId := w.nextThreadId + 1 }
      let w2 := { w1 with messages := w1.messages ++ [inbound_message req th.id o.wall] }
      webhook_after_message w2 o req th
    | some th0 =>
      let th := { th0 with lastMessage := req.message
                           lastMessageTime := ts
                           unreadCount := th0.unreadCount + 1 }
      let w1 := { w with threads := updateThread w.threads th }
      let w2 := { w1 with messages := w1.messages ++ [inbound_message req th.id o.wall] }
      webhook_after_message w2 o req th

/-! ## Shared lemmas -/

theorem conflictsWith_true_iff (t1 t2 : Int) :
    conflictsWith t1 t2 = true ↔ (t1 - t2).natAbs < 3600 := by
  simp only [conflictsWith, decide_eq_true_eq]
  rw [Int.abs_eq_natAbs]
  omega

theorem conflictsWith_false_iff (t1 t2 : Int) :
    conflictsWith t1 t2 = false ↔ 3600 ≤ (t1 - t2).natAbs := by
  simp only [conflictsWith, decide_eq_false_iff_not]
  rw [Int.abs_eq_natAbs]
  omega

theorem hasConflict_false_iff (t : Int) (ex : List AvailEntry) :
    hasConflict t ex = false ↔
      ∀ v ∈ ex, 3600 ≤ (t - v.scheduledTime).natAbs := by
  simp only [hasConflict, List.any_eq_false]
  constructor
  · intro h v hv
    exact (conflictsWith_false_iff t v.scheduledTime).1
      (Bool.eq_false_iff.2 (h v hv))
  · intro h v hv
    rw [(conflictsWith_false_iff t v.scheduledTime).2 (h v hv)]
    simp

theorem is_just_ack_iff (msg : String) :
    is_just_acknowledgment msg = true ↔
      ((∃ p ∈ acknowledgment_patterns, patMatches p (lowerStr msg) = true)
        ∧ (∀ c ∈ msg.data, c.isDigit = false)
        ∧ (∀ c ∈ msg.data, c ≠ '$')) := by
  simp only [is_just_acknowledgment, Bool.and_eq_true, Bool.not_eq_true',
    List.any_eq_true, List.any_eq_false, List.contains_eq_any_beq,
    beq_iff_eq, Bool.not_eq_true]
  constructor
  · rintro ⟨⟨⟨p, hp, hm⟩, hd⟩, hs⟩
    exact ⟨⟨p, hp, hm⟩, hd, fun c hc => fun e => hs c hc e.symm⟩
  · rintro ⟨⟨p, hp, hm⟩, hd, hs⟩
    exact ⟨⟨⟨p, hp, hm⟩, hd⟩, fun c hc => fun e => hs c hc e.symm⟩

theorem slotInvalid_false_iff (now_ct end_date : Int) (ex : List AvailEntry)
    (c : Int) :
    slotInvalid now_ct end_date ex c = false ↔
      now_ct ≤ c ∧ c ≤ end_date ∧ hasConflict c ex = false := by
  simp only [slotInvalid, Bool.or_eq_false_iff, decide_eq_false_iff_not, not_lt]
  tauto

theorem argminKey_mem (key : Int → Nat) (l : List Int) (t : Int)
    (h : argminKey key l = some t) : t ∈ l := by
  induction l with
  | nil => simp [argminKey] at h
  | cons a as ih =>
    rw [argminKey] at h
    cases has : argminKey key as with
    | none =>
      rw [has] at h
      simp only [Option.some.injEq] at h
      simp [h]
    | some u =>
      rw [has] at h
      by_cases hk : key u < key a
      · simp only [hk, if_true, Option.some.injEq] at h
        exact List.mem_cons_of_mem _ (ih (h ▸ has))
      · simp only [hk, if_false, Option.some.injEq] at h
        simp [h]

theorem argminKey_eq_none (key : Int → Nat) (l : List Int)
    (h : argminKey key l = none) : l = [] := by
  cases l with
  | nil => rfl
  | cons a as =>
    exfalso
    rw [argminKey] at h
    cases harg : argminKey key as with
    | none => rw [harg] at h; exact absurd h (by simp)
    | some u =>
      rw [harg] at h
      simp only [] at h
      split at h <;> exact absurd h (by simp)

theorem argminKey_le (key : Int → Nat) (l : List Int) (t : Int)
    (h : argminKey key l = some t) : ∀ u ∈ l, key t ≤ key u := by
  induction l generalizing t with
  | nil => simp [argminKey] at h
  | cons a as ih =>
    rw [argminKey] at h
    intro u hu
    cases has : argminKey key as with
    | none =>
      rw [has] at h
      simp only [Option.some.injEq] at h
      have : as = [] := argminKey_eq_none key as has
      subst this
      rcases List.mem_singleton.1 hu with rfl
      exact h ▸ Nat.le_refl _
    | some v =>
      rw [has] at h
      rcases List.mem_cons.1 hu with rfl | hu2
      · by_cases hk : key v < key u
        · simp only [hk, if_true, Option.some.injEq] at h
          exact h ▸ Nat.le_of_lt hk
        · simp only [hk, if_false, Option.some.injEq] at h
          exact h ▸ Nat.le_refl _
      · have hv := ih v has
        by_cases hk : key v < key a
        · simp only [hk, if_true, Option.some.injEq] at h
          exact h ▸ hv u hu2
        · simp only [hk, if_false, Option.some.injEq] at h
          exact h ▸ Nat.le_trans (Nat.le_of_not_lt hk) (hv u hu2)

theorem find_next_body_eq_some (p now_ct end_date : Int) (ex : List AvailEntry)
    (off t : Int) :
    ((if decide (p + off * 60 < now_ct) || decide (end_date < p + off * 60)
        then none
      else if hasConflict (p + off * 60) ex then none
      else some (p + off * 60)) = some t) ↔
      t = p + off * 60 ∧ slotInvalid now_ct end_date ex (p + off * 60) = false := by
  simp only [slotInvalid, Bool.or_eq_false_iff]
  split
  · rename_i hskip
    rw [Bool.or_eq_true] at hskip
    constructor
    · intro h; exact absurd h (by simp)
    · rintro ⟨-, ⟨h1, h2⟩, -⟩
      rcases hskip with h | h
      · rw [h1] at h; exact absurd h (by simp)
      · rw [h2] at h; exact absurd h (by simp)
  · rename_i hskip
    rw [Bool.or_eq_true] at hskip
    push_neg at hskip
    split
    · rename_i hcf
      constructor
      · intro h; exact absurd h (by simp)
      · rintro ⟨-, -, h⟩
        rw [hcf] at h; exact absurd h (by simp)
    · rename_i hcf
      rw [Bool.not_eq_true] at hcf
      constructor
      · intro h
        refine ⟨(Option.some.injEq _ _ ▸ h).symm, ?_, hcf⟩
        constructor
        · exact Bool.not_eq_true _ ▸ (fun hh => hskip.1 hh)
        · exact Bool.not_eq_true _ ▸ (fun hh => hskip.2 hh)
      · rintro ⟨rfl, -⟩
        rfl

theorem find_next_some (p : Int) (ex : List AvailEntry) (now_ct end_date t : Int)
    (h : find_next_available_time p ex now_ct end_date = some t) :
    (∃ off ∈ schedule_offsets, t = p + off * 60)
    ∧ now_ct ≤ t ∧ t ≤ end_date ∧ hasConflict t ex = false
    ∧ ∀ off ∈ schedule_offsets,
        slotInvalid now_ct end_date ex (p + off * 60) = false →
          (t - p).natAbs ≤ (p + off * 60 - p).natAbs := by
  simp only [find_next_available_time] at h
  have hmem := argminKey_mem _ _ _ h
  have hmin := argminKey_le _ _ _ h
  rw [List.mem_filterMap] at hmem
  obtain ⟨off, hoff, hf⟩ := hmem
  rw [find_next_body_eq_some] at hf
  obtain ⟨rfl, hvalid⟩ := hf
  rw [slotInvalid_false_iff] at hvalid
  refine ⟨⟨off, hoff, rfl⟩, hvalid.1, hvalid.2.1, hvalid.2.2, ?_⟩
  intro off2 hoff2 hv2
  exact hmin _ (List.mem_filterMap.2 ⟨off2, hoff2,
    (find_next_body_eq_some p now_ct end_date ex off2 _).2 ⟨rfl, hv2⟩⟩)

theorem find_next_none (p : Int) (ex : List AvailEntry) (now_ct end_date : Int)
    (h : find_next_available_time p ex now_ct end_date = none) :
    ∀ off ∈ schedule_offsets,
      slotInvalid now_ct end_date ex (p + off * 60) = true := by
  simp only [find_next_available_time] at h
  intro off hoff
  cases hs : slotInvalid now_ct end_date ex (p + off * 60) with
  | true => rfl
  | false =>
    exfalso
    have hnil := argminKey_eq_none _ _ h
    have hbody := List.filterMap_eq_nil_iff.1 hnil off hoff
    rw [(find_next_body_eq_some p now_ct end_date ex off
      (p + off * 60)).2 ⟨rfl, hs⟩] at hbody
    exact absurd hbody (by simp)

theorem scanHours_some (days : List Int) (hours : List Nat)
    (now_ct end_date : Int) (ex : List AvailEntry) (c : Int)
    (h : scanHours days hours now_ct end_date ex = some c) :
    slotInvalid now_ct end_date ex c = false
    ∧ ∃ d ∈ days, ∃ hh ∈ hours, c = slotAt d hh := by
  obtain ⟨d, hd, hinner⟩ := List.exists_of_findSome?_eq_some h
  obtain ⟨hh, hhh, hbody⟩ := List.exists_of_findSome?_eq_some hinner
  cases hinv : slotInvalid now_ct end_date ex (slotAt d hh) with
  | true => simp [hinv] at hbody
  | false =>
    simp only [hinv, Bool.false_eq_true, if_false, Option.some.injEq] at hbody
    subst hbody
    exact ⟨hinv, d, hd, hh, hhh, rfl⟩

theorem propose_created_free (now_ct end_date : Int) (ex : List AvailEntry)
    (tid : Nat) (phone : String) (clid : Option Nat) (v : VisitDoc)
    (h : (propose_available_time now_ct end_date ex tid phone clid).created
      = some v) :
    v.status = "scheduled" ∧ now_ct ≤ v.scheduledTime
    ∧ v.scheduledTime ≤ end_date
    ∧ hasConflict v.scheduledTime ex = false := by
  simp only [propose_available_time] at h
  cases h1 : scanHours (proposal_days now_ct end_date) preferred_hours now_ct
      end_date ex with
  | some c =>
    rw [h1] at h
    simp only [Option.some.injEq] at h
    have hv := (scanHours_some _ _ _ _ _ _ h1).1
    rw [slotInvalid_false_iff] at hv
    subst h
    exact ⟨rfl, hv.1, hv.2.1, hv.2.2⟩
  | none =>
    rw [h1] at h
    cases h2 : scanHours (proposal_days now_ct end_date) fallback_hours now_ct
        end_date ex with
    | some c =>
      rw [h2] at h
      simp only [Option.some.injEq] at h
      have hv := (scanHours_some _ _ _ _ _ _ h2).1
      rw [slotInvalid_false_iff] at hv
      subst h
      exact ⟨rfl, hv.1, hv.2.1, hv.2.2⟩
    | none =>
      rw [h2] at h
      simp at h

/-! ## C1: the conflict predicate -/

/-- C1.  The single conflict predicate of the Scheduling Engine (shared by the
direct-booking, alternative-search and proposal-fallback paths through
`hasConflict`) holds iff `|t1 - t2| < 3600` seconds, is symmetric, and does
not fire at exactly 3600 seconds. -/
theorem conflict_rule_strict_and_symmetric (t1 t2 : Int) :
    (conflictsWith t1 t2 = true ↔ (t1 - t2).natAbs < 3600)
    ∧ conflictsWith t1 t2 = conflictsWith t2 t1
    ∧ ((t1 - t2).natAbs = 3600 → conflictsWith t1 t2 = false) := by
  refine ⟨conflictsWith_true_iff t1 t2, ?_, ?_⟩
  · simp [conflictsWith, abs_sub_comm]
  · intro h
    rw [conflictsWith_false_iff, h]

/-- Witness for C1: two visits exactly 3600 seconds apart do not conflict. -/
theorem conflict_rule_strict_and_symmetric_witness :
    conflictsWith 7200 3600 = false :=
  (conflict_rule_strict_and_symmetric 7200 3600).2.2 (by decide)

/-! ## C9: `modify_visit` changes only the given fields -/

/-- C9.  `modify_visit` refreshes `updatedAt`, sets `scheduledTime` exactly
when given, `notes` exactly when not `None`, `status` exactly when truthy
(not `None`, not empty), and leaves every other field of the document
unchanged. -/
theorem modify_visit_frame (v : VisitDoc) (st : Option Int) (nts : Option String)
    (stat : Option String) (wall : Int) :
    (modify_visit v st nts stat wall).threadId = v.threadId
    ∧ (modify_visit v st nts stat wall).dealerPhoneNumber = v.dealerPhoneNumber
    ∧ (modify_visit v st nts stat wall).createdAt = v.createdAt
    ∧ (modify_visit v st nts stat wall).carListingId = v.carListingId
    ∧ (modify_visit v st nts stat wall).updatedAt = wall
    ∧ (st = none → (modify_visit v st nts stat wall).scheduledTime = v.scheduledTime)
    ∧ (∀ t, st = some t → (modify_visit v st nts stat wall).scheduledTime = t)
    ∧ (nts = none → (modify_visit v st nts stat wall).notes = v.notes)
    ∧ (∀ s, nts = some s → (modify_visit v st nts stat wall).notes = some s)
    ∧ ((stat = none ∨ stat = some "") → (modify_visit v st nts stat wall).status = v.status)
    ∧ (∀ s, stat = some s → s ≠ "" → (modify_visit v st nts stat wall).status = s) := by
  cases st <;> cases nts <;> rcases stat with _ | s <;>
    simp only [modify_visit] <;>
    first
      | (split <;> simp_all)
      | simp

/-- Witness for C9 at a concrete visit and arguments. -/
theorem modify_visit_frame_witness :
    (modify_visit ⟨1, 0, "p", "scheduled", none, none, 0, 0⟩ (some 5) none
      (some "cancelled") 99).scheduledTime = 5 :=
  (modify_visit_frame ⟨1, 0, "p", "scheduled", none, none, 0, 0⟩ (some 5) none
    (some "cancelled") 99).2.2.2.2.2.2.1 5 rfl

/-! ## C2: the availability context is not thread-scoped -/

/-- C2 counterexample.  `get_visit_availability` has no `threadId` condition,
so a non-cancelled visit of thread 2 inside the window is part of the
availability context that `process_visit_scheduling` checks for thread 1.
Were the claim true, thread 1's context would be empty and the proposed time
3600 would be booked directly (`.confirmed 3600`); instead the engine detects
a conflict with thread 2's visit and books the alternative slot 0. -/
theorem availability_context_not_thread_scoped :
    (⟨2, 3600, "other", "scheduled", none, none, 0, 0⟩ : VisitDoc).threadId ≠ 1
    ∧ get_visit_availability
        [⟨2, 3600, "other", "scheduled", none, none, 0, 0⟩] 0 172800
        = [⟨3600, "other", "scheduled"⟩]
    ∧ process_visit_scheduling true
        [⟨2, 3600, "other", "scheduled", none, none, 0, 0⟩] [] 0
        (.proposed 3600) 1 "buyer"
        = some { message := .alternative 0
                 visit_scheduled := true
                 created := some (create_visit 1 0 "buyer" none none 0) } := by
  refine ⟨by decide, by decide, by decide⟩

/-- C2 amended.  The availability context consists of ALL existing
non-cancelled visits — of any thread — whose `scheduledTime` lies within the
queried window (instantiated by `process_visit_scheduling` with
`[now, now + 2 days]`). -/
theorem availability_context_membership (db : List VisitDoc) (s e : Int)
    (a : AvailEntry) :
    a ∈ get_visit_availability db s e ↔
      ∃ v ∈ db, s ≤ v.scheduledTime ∧ v.scheduledTime ≤ e
        ∧ v.status ≠ "cancelled" ∧ entryOf v = a := by
  simp only [get_visit_availability, List.mem_map, List.mem_filter,
    Bool.and_eq_true, decide_eq_true_eq, Bool.not_eq_true', beq_eq_false_iff_ne]
  tauto

/-! ## C5: past proposed times are rejected -/

/-- C5.  When the dealer-proposed time is strictly before "now", the engine
falls back to the proposal path, and no visit is booked at the proposed
time (the proposal path only books slots at or after "now"). -/
theorem past_proposed_time_rejected (db : List VisitDoc)
    (carls : List CarListingDoc) (now_ct t : Int) (tid : Nat) (phone : String)
    (h : t < now_ct) :
    process_visit_scheduling true db carls now_ct (.proposed t) tid phone
      = some (liftPropose (propose_available_time now_ct (now_ct + 2 * 86400)
          (get_visit_availability db now_ct (now_ct + 2 * 86400)) tid phone
          ((carls.find? fun c => c.threadId == tid).map fun c => c.id)))
    ∧ ∀ (r : SchedulingOutcome) (v : VisitDoc),
        process_visit_scheduling true db carls now_ct (.proposed t) tid phone
          = some r →
        r.created = some v → v.scheduledTime ≠ t := by
  have h1 : process_visit_scheduling true db carls now_ct (.proposed t) tid
      phone = some (liftPropose (propose_available_time now_ct
        (now_ct + 2 * 86400)
        (get_visit_availability db now_ct (now_ct + 2 * 86400)) tid phone
        ((carls.find? fun c => c.threadId == tid).map fun c => c.id))) := by
    simp [process_visit_scheduling, h]
  refine ⟨h1, ?_⟩
  intro r v hr hv
  rw [h1, Option.some.injEq] at hr
  subst hr
  have hc : (propose_available_time now_ct (now_ct + 2 * 86400)
      (get_visit_availability db now_ct (now_ct + 2 * 86400)) tid phone
      ((carls.find? fun c => c.threadId == tid).map fun c => c.id)).created
      = some v := hv
  have := propose_created_free _ _ _ _ _ _ _ hc
  omega

/-- Witness for C5: a proposed time in the past leads to the proposal path
(which books tomorrow 10:00 on an empty calendar, not the proposed time). -/
theorem past_proposed_time_rejected_witness :
    process_visit_scheduling true [] [] 0 (.proposed (-1)) 1 "dealer"
      = some (liftPropose (propose_available_time 0 172800
          (get_visit_availability [] 0 172800) 1 "dealer" none)) :=
  (past_proposed_time_rejected [] [] 0 (-1) 1 "dealer" (by decide)).1

/-! ## C4: the alternative-candidate search -/

/-- C4.  On a conflict, the engine considers exactly the six offsets
±30/±60/±90 minutes, skips candidates outside `[now, end of window]`, books
the nearest non-conflicting candidate, and otherwise falls back to the
proposal scan.  The first conjunct characterises
`find_next_available_time`; the second shows how
`process_visit_scheduling` dispatches on its result in the conflict case. -/
theorem alternative_search_nearest (p : Int) (ex : List AvailEntry)
    (now_ct end_date : Int) :
    (match find_next_available_time p ex now_ct end_date with
      | some t => (∃ off ∈ schedule_offsets, t = p + off * 60)
          ∧ now_ct ≤ t ∧ t ≤ end_date ∧ hasConflict t ex = false
          ∧ ∀ off ∈ schedule_offsets,
              slotInvalid now_ct end_date ex (p + off * 60) = false →
                (t - p).natAbs ≤ (p + off * 60 - p).natAbs
      | none => ∀ off ∈ schedule_offsets,
          slotInvalid now_ct end_date ex (p + off * 60) = true)
    ∧ ∀ (db : List VisitDoc) (carls : List CarListingDoc) (now2 pt : Int)
        (tid : Nat) (phone : String),
        ¬ pt < now2 →
        hasConflict pt (get_visit_availability db now2 (now2 + 2 * 86400))
          = true →
        process_visit_scheduling true db carls now2 (.proposed pt) tid phone
          = some (match find_next_available_time pt
              (get_visit_availability db now2 (now2 + 2 * 86400)) now2
              (now2 + 2 * 86400) with
            | some alt =>
              { message := .alternative alt
                visit_scheduled := true
                created := some (create_visit tid alt phone
                  ((carls.find? fun c => c.threadId == tid).map fun c => c.id)
                  none now2) }
            | none => liftPropose (propose_available_time now2
                (now2 + 2 * 86400)
                (get_visit_availability db now2 (now2 + 2 * 86400)) tid phone
                ((carls.find? fun c => c.threadId == tid).map fun c => c.id))) := by
  constructor
  · cases hfind : find_next_available_time p ex now_ct end_date with
    | some t => exact find_next_some p ex now_ct end_date t hfind
    | none => exact find_next_none p ex now_ct end_date hfind
  · intro db carls now2 pt tid phone hpast hconf
    simp only [process_visit_scheduling, Bool.not_true, Bool.false_eq_true,
      if_false, Option.some.injEq]
    rw [if_neg hpast, if_pos hconf]

/-- Witness for C4 at the concrete conflict of the C2 scenario shifted to an
empty calendar plus one visit at 3600: the engine books the nearest free
candidate. -/
theorem alternative_search_nearest_witness :
    process_visit_scheduling true
        [⟨1, 3600, "d", "scheduled", none, none, 0, 0⟩] [] 0
        (.proposed 4000) 1 "d"
      = some (match find_next_available_time 4000
          (get_visit_availability
            [⟨1, 3600, "d", "scheduled", none, none, 0, 0⟩] 0 172800) 0
          172800 with
        | some alt =>
          { message := .alternative alt
            visit_scheduled := true
            created := some (create_visit 1 alt "d" none none 0) }
        | none => liftPropose (propose_available_time 0 172800
            (get_visit_availability
              [⟨1, 3600, "d", "scheduled", none, none, 0, 0⟩] 0 172800) 1 "d"
            none)) :=
  (alternative_search_nearest 0 [] 0 0).2
    [⟨1, 3600, "d", "scheduled", none, none, 0, 0⟩] [] 0 4000 1 "d"
    (by decide) (by decide)

/-! ## C10: every booked visit is conflict-free and "scheduled" -/

/-- C10.  Whatever path books it — direct booking, alternative search, or
proposal fallback — a visit created by `process_visit_scheduling` has status
"scheduled" and its time is at least 3600 seconds away from every visit of
the availability context the call loaded. -/
theorem engine_created_visits_conflict_free (hc : Bool) (db : List VisitDoc)
    (carls : List CarListingDoc) (now_ct : Int) (ext : ExtractResult)
    (tid : Nat) (phone : String) (r : SchedulingOutcome) (v : VisitDoc)
    (h1 : process_visit_scheduling hc db carls now_ct ext tid phone = some r)
    (h2 : r.created = some v) :
    v.status = "scheduled"
    ∧ ∀ en ∈ get_visit_availability db now_ct (now_ct + 2 * 86400),
        3600 ≤ (v.scheduledTime - en.scheduledTime).natAbs := by
  cases hc with
  | false => simp [process_visit_scheduling] at h1
  | true =>
    simp only [process_visit_scheduling, Bool.not_true, Bool.false_eq_true,
      if_false, Option.some.injEq] at h1
    cases ext with
    | llmError =>
      subst h1
      exact absurd h2 (by simp)
    | noTime =>
      subst h1
      have := propose_created_free _ _ _ _ _ _ _ h2
      rw [hasConflict_false_iff] at this
      exact ⟨this.1, this.2.2.2⟩
    | proposed t =>
      simp only [] at h1
      by_cases hpast : t < now_ct
      · rw [if_pos hpast] at h1
        subst h1
        have := propose_created_free _ _ _ _ _ _ _ h2
        rw [hasConflict_false_iff] at this
        exact ⟨this.1, this.2.2.2⟩
      · rw [if_neg hpast] at h1
        by_cases hcf : hasConflict t
            (get_visit_availability db now_ct (now_ct + 2 * 86400)) = true
        · rw [if_pos hcf] at h1
          cases hfind : find_next_available_time t
              (get_visit_availability db now_ct (now_ct + 2 * 86400)) now_ct
              (now_ct + 2 * 86400) with
          | some alt =>
            rw [hfind] at h1
            subst h1
            simp only [Option.some.injEq] at h2
            subst h2
            have := (find_next_some _ _ _ _ _ hfind).2.2.2.1
            rw [hasConflict_false_iff] at this
            exact ⟨rfl, this⟩
          | none =>
            rw [hfind] at h1
            subst h1
            have := propose_created_free _ _ _ _ _ _ _ h2
            rw [hasConflict_false_iff] at this
            exact ⟨this.1, this.2.2.2⟩
        · rw [if_neg hcf] at h1
          subst h1
          simp only [Option.some.injEq] at h2
          subst h2
          rw [Bool.not_eq_true, hasConflict_false_iff] at hcf
          exact ⟨rfl, hcf⟩

/-- Witness for C10: a direct booking on an empty calendar. -/
theorem engine_created_visits_conflict_free_witness :
    (create_visit 1 100 "d" none none 0).status = "scheduled"
    ∧ ∀ en ∈ get_visit_availability [] 0 (0 + 2 * 86400),
        3600 ≤ ((create_visit 1 100 "d" none none 0).scheduledTime
          - en.scheduledTime).natAbs :=
  engine_created_visits_conflict_free true [] [] 0 (.proposed 100) 1 "d"
    { message := .confirmed 100
      visit_scheduled := true
      created := some (create_visit 1 100 "d" none none 0) }
    (create_visit 1 100 "d" none none 0) (by decide) rfl

/-! ## C3: the proposal fallback -/

theorem findSome?_guard {α : Type} (f : α → Int) (bad : Int → Bool)
    (l : List α) :
    (l.findSome? fun a => if bad (f a) then none else some (f a)) =
      ((l.map f).find? fun c => !bad c) := by
  induction l with
  | nil => rfl
  | cons a as ih =>
    rw [List.findSome?_cons, List.map_cons, List.find?_cons]
    cases hb : bad (f a) with
    | true => simp [hb, ih]
    | false => simp [hb]

theorem scanHours_eq_find? (days : List Int) (hours : List Nat)
    (now_ct end_date : Int) (ex : List AvailEntry) :
    scanHours days hours now_ct end_date ex =
      ((days.flatMap fun d => hours.map (slotAt d)).find?
        fun c => !slotInvalid now_ct end_date ex c) := by
  induction days with
  | nil => rfl
  | cons d ds ih =>
    have hguard := findSome?_guard (slotAt d) (slotInvalid now_ct end_date ex)
      hours
    simp only [scanHours] at ih ⊢
    rw [List.flatMap_cons, List.find?_append, List.findSome?_cons, hguard, ih]
    cases (hours.map (slotAt d)).find?
        (fun c => !slotInvalid now_ct end_date ex c) <;> simp [Option.or]

theorem preferred_subset_fallback : ∀ h ∈ preferred_hours, h ∈ fallback_hours := by
  decide

/-- The slots tried by `propose_available_time`, in trial order: every
scanned day at the preferred hours first, then every scanned day at each
whole hour of `[9, 18)`. -/
def proposalOrder (now_ct end_date : Int) : List Int :=
  ((proposal_days now_ct end_date).flatMap fun d =>
    preferred_hours.map (slotAt d))
  ++ ((proposal_days now_ct end_date).flatMap fun d =>
    fallback_hours.map (slotAt d))

/-- C3.  The proposal fallback books exactly the first valid free slot of the
day-by-day scan (preferred hours 10/14/16 over all scanned days first, then
every whole hour 9..17), with `visit_scheduled = true`; it returns the
ask-the-dealer message with `visit_scheduled = false` and no visit created
precisely when every slot of that union across the scanned days is before
now, past the window end, or in conflict. -/
theorem proposal_fallback_scan (now_ct end_date : Int) (ex : List AvailEntry)
    (tid : Nat) (phone : String) (clid : Option Nat) :
    ((propose_available_time now_ct end_date ex tid phone clid).created.map
        VisitDoc.scheduledTime
      = (proposalOrder now_ct end_date).find?
          (fun c => !slotInvalid now_ct end_date ex c))
    ∧ ((propose_available_time now_ct end_date ex tid phone clid).visit_scheduled
      = ((proposalOrder now_ct end_date).find?
          (fun c => !slotInvalid now_ct end_date ex c)).isSome)
    ∧ ((propose_available_time now_ct end_date ex tid phone clid).visit_scheduled
          = false →
        propose_available_time now_ct end_date ex tid phone clid
          = { message := .askDealer, visit_scheduled := false, created := none })
    ∧ ((propose_available_time now_ct end_date ex tid phone clid).message
          = .askDealer ↔
        ∀ d ∈ proposal_days now_ct end_date, ∀ h ∈ fallback_hours,
          slotInvalid now_ct end_date ex (slotAt d h) = true) := by
  have hp := scanHours_eq_find? (proposal_days now_ct end_date) preferred_hours
    now_ct end_date ex
  have hf := scanHours_eq_find? (proposal_days now_ct end_date) fallback_hours
    now_ct end_date ex
  simp only [propose_available_time, proposalOrder, List.find?_append, hp, hf]
  cases hfp : (((proposal_days now_ct end_date).flatMap fun d =>
      preferred_hours.map (slotAt d)).find?
        fun c => !slotInvalid now_ct end_date ex c) with
  | some c =>
    have hfree := List.find?_some hfp
    have hmem := List.mem_of_find?_eq_some hfp
    refine ⟨by simp [create_visit, Option.or], by simp [Option.or],
      by simp, ?_⟩
    constructor
    · intro hmsg; exact absurd hmsg (by simp)
    · intro hall
      exfalso
      rw [List.mem_flatMap] at hmem
      obtain ⟨d, hd, hcm⟩ := hmem
      rw [List.mem_map] at hcm
      obtain ⟨hh, hhh, rfl⟩ := hcm
      rw [hall d hd hh (preferred_subset_fallback hh hhh)] at hfree
      exact absurd hfree (by simp)
  | none =>
    cases hff : (((proposal_days now_ct end_date).flatMap fun d =>
        fallback_hours.map (slotAt d)).find?
          fun c => !slotInvalid now_ct end_date ex c) with
    | some c =>
      have hfree := List.find?_some hff
      refine ⟨by simp [create_visit, Option.or], by simp [Option.or],
        by simp, ?_⟩
      constructor
      · intro hmsg; exact absurd hmsg (by simp)
      · intro hall
        exfalso
        have hmem := List.mem_of_find?_eq_some hff
        rw [List.mem_flatMap] at hmem
        obtain ⟨d, hd, hcm⟩ := hmem
        rw [List.mem_map] at hcm
        obtain ⟨hh, hhh, rfl⟩ := hcm
        rw [hall d hd hh hhh] at hfree
        exact absurd hfree (by simp)
    | none =>
      refine ⟨by simp [Option.or], by simp [Option.or], by simp, ?_⟩
      constructor
      · intro _ d hd hh hhh
        have := List.find?_eq_none.1 hff (slotAt d hh)
          (List.mem_flatMap.2 ⟨d, hd, List.mem_map.2 ⟨hh, hhh, rfl⟩⟩)
        cases hs : slotInvalid now_ct end_date ex (slotAt d hh) with
        | true => rfl
        | false => exact absurd (by simp [hs]) this
      · intro _
        rfl

/-- Witness for C3 on an empty calendar at `now = 0`: the characterisation
instantiated concretely (the scan books tomorrow at 10:00). -/
theorem proposal_fallback_scan_witness :
    (propose_available_time 0 172800 [] 1 "d" none).created.map
        VisitDoc.scheduledTime
      = (proposalOrder 0 172800).find? (fun c => !slotInvalid 0 172800 [] c) :=
  (proposal_fallback_scan 0 172800 [] 1 "d" none).1

/-! ## C6 / C7: the new-information classifier -/

/-- C6.  With the client configured, the classifier returns `False` without
invoking the language model exactly on messages that match an acknowledgment
pattern, contain no digit and no dollar sign; a message failing any of the
three conditions always reaches the language-model call. -/
theorem classifier_fast_path (msg : String) (lm : Option Bool) :
    (((∃ p ∈ acknowledgment_patterns, patMatches p (lowerStr msg) = true)
        ∧ (∀ c ∈ msg.data, c.isDigit = false) ∧ (∀ c ∈ msg.data, c ≠ '$')) →
      message_contains_new_information true lm msg = (false, false))
    ∧ ((¬ ((∃ p ∈ acknowledgment_patterns, patMatches p (lowerStr msg) = true)
        ∧ (∀ c ∈ msg.data, c.isDigit = false) ∧ (∀ c ∈ msg.data, c ≠ '$'))) →
      (message_contains_new_information true lm msg).2 = true) := by
  constructor
  · intro h
    have hb : is_just_acknowledgment msg = true := (is_just_ack_iff msg).2 h
    simp [message_contains_new_information, hb]
  · intro h
    have hb : is_just_acknowledgment msg = false := by
      cases hb : is_just_acknowledgment msg
      · rfl
      · exact absurd ((is_just_ack_iff msg).1 hb) h
    cases lm <;> simp [message_contains_new_information, hb]

/-- Witness for C6: a pure acknowledgment is classified `False` on the fast
path even though the model oracle would say yes. -/
theorem classifier_fast_path_witness :
    message_contains_new_information true (some true) "sounds good" =
      (false, false) :=
  (classifier_fast_path "sounds good" (some true)).1 (by decide)

/-- C7.  When the message does not take the acknowledgment fast path (so the
language-model call happens) and that call raises, the classifier returns
`True`: the message is treated as containing new information. -/
theorem classifier_fail_open (msg : String)
    (h : is_just_acknowledgment msg = false) :
    message_contains_new_information true none msg = (true, true) := by
  simp [message_contains_new_information, h]

/-- Witness for C7 on a concrete non-acknowledgment message. -/
theorem classifier_fail_open_witness :
    message_contains_new_information true none "hello" = (true, true) :=
  classifier_fail_open "hello" (by decide)

/-! ## C8: completed threads are a no-op -/

/-- C8.  When an inbound SMS (well-formed, not the opt-in boilerplate)
arrives for an existing thread whose `conversationComplete` flag is true, the
handler updates the thread preview fields, appends the inbound message, and
stops: no classifier, agent or scheduler call, no SMS sent, no visit or
listing change, no pending-response change, and the waiting/complete flags
are untouched (visible in the thread record update, which sets only
`lastMessage`, `lastMessageTime` and `unreadCount`).  The response is a
success. -/
theorem webhook_complete_thread_noop (w : World) (o : Oracles)
    (req : SMSWebhook) (th : ThreadDoc)
    (h1 : (req.fromNumber == "") = false)
    (h2 : (req.message == "") = false)
    (h3 : containsOptIn req.message = false)
    (h4 : findThread w req.fromNumber = some th)
    (h5 : th.conversationComplete = true) :
    sms_webhook w o req = .ok
      { w with
        threads := updateThread w.threads
          { th with lastMessage := req.message
                    lastMessageTime := req.timestamp.getD o.wall
                    unreadCount := th.unreadCount + 1 }
        messages := w.messages ++ [inbound_message req th.id o.wall] }
      "Conversation complete, no response sent" noEffects := by
  simp only [sms_webhook, h1, h2, h3, h4, Bool.or_self, Bool.false_eq_true,
    if_false]
  simp [webhook_after_message, h5]

/-- Witness for C8 on a concrete one-thread world: the handler returns the
no-op success outcome with only the preview fields and the message log
changed. -/
theorem webhook_complete_thread_noop_witness :
    sms_webhook
      { threads := [⟨7, "+15551234", "old", 0, 0, true, false⟩]
        messages := []
        carlistings := []
        visits := []
        pending := []
        nextThreadId := 8
        nextListingId := 0 }
      ⟨0, true, none, none, .noTime, false, true, true⟩
      ⟨"+15551234", some "+18776647380", "hi", none, none, none⟩
      = .ok
        { threads := [⟨7, "+15551234", "hi", 0, 1, true, false⟩]
          messages := [⟨7, "+15551234", "+18776647380", "hi", "inbound", 0, none⟩]
          carlistings := []
          visits := []
          pending := []
          nextThreadId := 8
          nextListingId := 0 }
        "Conversation complete, no response sent" noEffects :=
  (webhook_complete_thread_noop
    { threads := [⟨7, "+15551234", "old", 0, 0, true, false⟩]
      messages := []
      carlistings := []
      visits := []
      pending := []
      nextThreadId := 8
      nextListingId := 0 }
    ⟨0, true, none, none, .noTime, false, true, true⟩
    ⟨"+15551234", some "+18776647380", "hi", none, none, none⟩
    ⟨7, "+15551234", "old", 0, 0, true, false⟩
    (by decide) (by decide) (by decide) (by decide) rfl).trans (by decide)

end CarScout
